import Mathlib

/-!
Verification of the bonnaroo-led GIF slideshow program against its
specification. Every definition below is a shallow embedding of a
function from the C++ sources (GifDecoder.h, SmartMatrix.h, SD.h,
FilenameFunctions.cpp, Bonnaroo.cpp); byte buffers become functions from
indices to byte values, machine integers become Nat or Int, and the
float scale arithmetic of the decoder is embedded over the exact
rationals. The theorems settle the spec claims about those embeddings.
-/

namespace BonnarooLed

/-! ### Pixel sink / compositor (SmartMatrix.h) -/

/-- Color triple matching the rgb24 struct of SmartMatrix.h lines 22-29. -/
structure Rgb24 where
  red : Nat
  green : Nat
  blue : Nat
deriving DecidableEq

/-- State of the background layer together with the global display
buffers it writes (SmartMatrix.h lines 64-103): width and height of the
canvas, the back plane g_back_buffer and the front plane
g_display_buffer, each modelled as a function from byte index to byte
value. -/
structure BackgroundLayer where
  width : Nat
  height : Nat
  g_back_buffer : Nat → Nat
  g_display_buffer : Nat → Nat

/-- Embeds SMLayerBackground::drawPixel (SmartMatrix.h lines 79-86): a
bounds check on the signed coordinates, then a three byte write into
g_back_buffer at index (y * width + x) * 3; out-of-range coordinates
fall through with no write and no error. -/
def SMLayerBackground.drawPixel (l : BackgroundLayer) (x y : Int) (color : Rgb24) :
    BackgroundLayer :=
  if 0 ≤ x ∧ x < (l.width : Int) ∧ 0 ≤ y ∧ y < (l.height : Int) then
    let idx := (y.toNat * l.width + x.toNat) * 3
    { l with g_back_buffer := fun i =>
        if i = idx then color.red
        else if i = idx + 1 then color.green
        else if i = idx + 2 then color.blue
        else l.g_back_buffer i }
  else l

/-- Embeds SMLayerBackground::swapBuffers (SmartMatrix.h lines 96-98):
memcpy of width * height * 3 bytes from g_back_buffer into
g_display_buffer; the copy argument is ignored by the source. -/
def SMLayerBackground.swapBuffers (l : BackgroundLayer) (copy : Bool) : BackgroundLayer :=
  { l with g_display_buffer := fun i =>
      if i < l.width * l.height * 3 then l.g_back_buffer i else l.g_display_buffer i }

/-- Embeds SMLayerBackground::fillScreen (SmartMatrix.h lines 88-94):
writes the color into every pixel slot of the back plane. -/
def SMLayerBackground.fillScreen (l : BackgroundLayer) (color : Rgb24) : BackgroundLayer :=
  { l with g_back_buffer := fun i =>
      if i < l.width * l.height * 3 then
        if i % 3 = 0 then color.red else if i % 3 = 1 then color.green else color.blue
      else l.g_back_buffer i }

/-! ### SD card file mock (SD.h) -/

/-- State of the File mock of SD.h lines 31-169: whether the underlying
FILE handle is open, the byte contents of the backing regular file, and
the stdio position indicator. -/
structure MockFile where
  isOpen : Bool
  bytes : List Nat
  pos : Nat
deriving DecidableEq

/-- Embeds File::seek (SD.h lines 123-126): false when no FILE handle is
open; otherwise fseek(_file, pos, SEEK_SET), which for a regular file
succeeds for every nonnegative offset, including offsets past the end of
the file (ISO C / POSIX fseek semantics), and sets the position
indicator to that offset. -/
def MockFile.seek (f : MockFile) (p : Nat) : MockFile × Bool :=
  if f.isOpen then ({ f with pos := p }, true) else (f, false)

/-- Embeds File::position (SD.h lines 128-131): 0 when closed, otherwise
ftell, the current position indicator. -/
def MockFile.position (f : MockFile) : Nat :=
  if f.isOpen then f.pos else 0

/-- Embeds File::size (SD.h lines 103-110): 0 when closed, otherwise the
length of the backing file found by seeking to its end. -/
def MockFile.size (f : MockFile) : Nat :=
  if f.isOpen then f.bytes.length else 0

/-- Embeds fileSeekCallback (FilenameFunctions.cpp lines 16-18): a
direct delegation to File::seek on the open GIF file. -/
def fileSeekCallback (f : MockFile) (p : Nat) : MockFile × Bool :=
  MockFile.seek f p

/-! ### Brightness control (Bonnaroo.cpp) -/

/-- Embeds max_brightness (Bonnaroo.cpp line 77). -/
def max_brightness : Int := 180

/-- Embeds the initial value of the brightness global
(Bonnaroo.cpp line 79). -/
def initial_brightness : Int := 26

/-- Embeds adjustBrightness (Bonnaroo.cpp lines 281-289) as a function
of the current brightness and the adjustment amount: negative amounts
clamp the sum at 0 from below, other amounts clamp it at max_brightness
from above. -/
def adjustBrightness (b amount : Int) : Int :=
  let next_brightness := b + amount
  if amount < 0 then max 0 next_brightness
  else min max_brightness next_brightness

/-! ### GIF decoder frame sequencing (GifDecoder.h) -/

/-- Frame sequencing state of the GifDecoder mock after a successful
load (GifDecoder.h lines 51-60): the frame count and per-frame delay
array reported by stb, the index of the frame the next decodeFrame call
renders, and the delay of the last rendered frame. The pixel buffer is
embedded separately as FrameData below. -/
structure GifState where
  frameCount : Nat
  frameDelays : List Int
  currentFrame : Nat
  currentDelay : Int
deriving DecidableEq

/-- Embeds the sequencing part of GifDecoder::decodeFrame (GifDecoder.h
lines 194-197 and 246-263): the early -1 return when no frames are
loaded, the delay update from frameDelays with delays below 10 replaced
by the 100 ms default, and the frame counter advance that wraps to 0 and
returns -1 on the call that renders the last frame. The pixel rendering
of lines 199-244 is embedded below as decodeFrameDraws. -/
def GifDecoder.decodeFrame (s : GifState) : GifState × Int :=
  if s.frameCount = 0 then (s, -1)
  else
    let d :=
      if s.currentFrame < s.frameCount then
        let d0 := s.frameDelays.getD s.currentFrame 0
        if d0 < 10 then 100 else d0
      else s.currentDelay
    if s.frameCount ≤ s.currentFrame + 1 then
      ({ s with currentDelay := d, currentFrame := 0 }, -1)
    else
      ({ s with currentDelay := d, currentFrame := s.currentFrame + 1 }, 0)

/-- Embeds GifDecoder::getFrameDelay_ms (GifDecoder.h lines 266-268). -/
def GifDecoder.getFrameDelay_ms (s : GifState) : Int :=
  s.currentDelay

/-- Embeds the session state left by a successful
GifDecoder::startDecoding (GifDecoder.h lines 120-191): stb has reported
frameCount frames with their delays, currentFrame is reset to 0, and
currentDelay still holds its constructor value 100 (line 84). -/
def GifDecoder.startDecoding (frameCount : Nat) (frameDelays : List Int) : GifState :=
  { frameCount := frameCount, frameDelays := frameDelays,
    currentFrame := 0, currentDelay := 100 }

/-- Return codes and final state of n successive decodeFrame calls. -/
def decodeCalls : Nat → GifState → List Int × GifState
  | 0, s => ([], s)
  | n + 1, s =>
    let r := GifDecoder.decodeFrame s
    let rest := decodeCalls n r.1
    (r.2 :: rest.1, rest.2)

/-! ### GIF decoder pixel rendering (GifDecoder.h lines 199-244)

The source computes the scale factor in C float arithmetic; the
embedding carries out the same computation over the exact rationals, and
embeds the C int cast as truncation toward zero. -/

/-- Truncation toward zero of a rational, the effect of the C cast
(int) applied to a float value. -/
def ratTrunc (q : ℚ) : ℤ :=
  Int.tdiv q.num (q.den : ℤ)

/-- One decoded frame as exposed to the drawing loop: its dimensions and
the RGBA byte buffer returned by stb (frameData in the source), a
function from byte index to byte value; pixel (x, y) occupies bytes
(y * width + x) * 4 through (y * width + x) * 4 + 3 in RGBA order. -/
structure FrameData where
  width : Nat
  height : Nat
  data : Nat → Nat

/-- Embeds the scale computation of decodeFrame (GifDecoder.h lines
204-208): scaleX = maxWidth / frameWidth, scaleY = maxHeight /
frameHeight, the smaller of the two, then capped at 1 so the image is
never scaled up. -/
def gifScale (maxW maxH w h : Nat) : ℚ :=
  let scaleX : ℚ := (maxW : ℚ) / (w : ℚ)
  let scaleY : ℚ := (maxH : ℚ) / (h : ℚ)
  let scale : ℚ := if scaleX < scaleY then scaleX else scaleY
  if 1 < scale then 1 else scale

/-- Embeds scaledWidth of decodeFrame (GifDecoder.h line 210). -/
def scaledWidth (maxW maxH : Nat) (f : FrameData) : ℤ :=
  ratTrunc ((f.width : ℚ) * gifScale maxW maxH f.width f.height)

/-- Embeds scaledHeight of decodeFrame (GifDecoder.h line 211). -/
def scaledHeight (maxW maxH : Nat) (f : FrameData) : ℤ :=
  ratTrunc ((f.height : ℚ) * gifScale maxW maxH f.width f.height)

/-- Embeds offsetX of decodeFrame (GifDecoder.h line 212); C int
division truncates toward zero, which is Int.tdiv. -/
def offsetX (maxW maxH : Nat) (f : FrameData) : ℤ :=
  Int.tdiv ((maxW : ℤ) - scaledWidth maxW maxH f) 2

/-- Embeds offsetY of decodeFrame (GifDecoder.h line 213). -/
def offsetY (maxW maxH : Nat) (f : FrameData) : ℤ :=
  Int.tdiv ((maxH : ℤ) - scaledHeight maxW maxH f) 2

/-- Embeds srcX of decodeFrame (GifDecoder.h line 222): the destination
column mapped back to a source column by inverse scaling, truncated
toward zero by the (int) cast. -/
def srcXAt (maxW maxH : Nat) (f : FrameData) (x : Nat) : ℤ :=
  ratTrunc ((((x : ℤ) - offsetX maxW maxH f : ℤ) : ℚ) /
    gifScale maxW maxH f.width f.height)

/-- Embeds srcY of decodeFrame (GifDecoder.h line 223). -/
def srcYAt (maxW maxH : Nat) (f : FrameData) (y : Nat) : ℤ :=
  ratTrunc ((((y : ℤ) - offsetY maxW maxH f : ℤ) : ℚ) /
    gifScale maxW maxH f.width f.height)

/-- One invocation of the drawPixelCallback: destination coordinates and
the color passed (GifDecoder.h line 234). -/
structure DrawCall where
  x : Nat
  y : Nat
  red : Nat
  green : Nat
  blue : Nat
deriving DecidableEq

/-- Embeds the body of the per-destination-pixel loop of decodeFrame
(GifDecoder.h lines 222-236): compute the inverse-mapped source pixel;
when it lies inside the frame, read its RGBA bytes and invoke the
callback only when the alpha byte exceeds 128; otherwise produce no
call. -/
def pixelDrawAt (maxW maxH : Nat) (f : FrameData) (x y : Nat) : Option DrawCall :=
  let srcX := srcXAt maxW maxH f x
  let srcY := srcYAt maxW maxH f y
  if 0 ≤ srcX ∧ srcX < (f.width : ℤ) ∧ 0 ≤ srcY ∧ srcY < (f.height : ℤ) then
    let idx := (srcY.toNat * f.width + srcX.toNat) * 4
    if 128 < f.data (idx + 3) then
      some ⟨x, y, f.data idx, f.data (idx + 1), f.data (idx + 2)⟩
    else none
  else none

/-- Embeds the full drawing loop of decodeFrame (GifDecoder.h lines
219-239): the drawPixelCallback invocations emitted while scanning the
destination surface row by row (y outer, x inner). -/
def decodeFrameDraws (maxW maxH : Nat) (f : FrameData) : List DrawCall :=
  (List.range maxH).flatMap fun y =>
    (List.range maxW).filterMap fun x => pixelDrawAt maxW maxH f x y

/-- Any emitted draw call records its own destination coordinates. -/
theorem pixelDrawAt_coords (maxW maxH : Nat) (f : FrameData) (x y : Nat) (c : DrawCall)
    (h : pixelDrawAt maxW maxH f x y = some c) : c.x = x ∧ c.y = y := by
  simp only [pixelDrawAt] at h
  split at h
  · split at h
    · exact ⟨congrArg DrawCall.x (Option.some.inj h).symm,
        congrArg DrawCall.y (Option.some.inj h).symm⟩
    · exact absurd h (by simp)
  · exact absurd h (by simp)

/-- Characterization of membership in the emitted draw list. -/
theorem mem_decodeFrameDraws (maxW maxH : Nat) (f : FrameData) (c : DrawCall) :
    c ∈ decodeFrameDraws maxW maxH f ↔
      c.x < maxW ∧ c.y < maxH ∧ pixelDrawAt maxW maxH f c.x c.y = some c := by
  unfold decodeFrameDraws
  simp only [List.mem_flatMap, List.mem_filterMap, List.mem_range]
  constructor
  · rintro ⟨y, hy, x, hx, hpx⟩
    obtain ⟨hcx, hcy⟩ := pixelDrawAt_coords maxW maxH f x y c hpx
    subst hcx
    subst hcy
    exact ⟨hx, hy, hpx⟩
  · rintro ⟨hx, hy, hpx⟩
    exact ⟨c.y, hy, c.x, hx, hpx⟩

/-- What an emitted draw call contains: an in-bounds inverse-mapped
source pixel whose alpha byte exceeds 128, and that pixel's RGB bytes. -/
theorem pixelDrawAt_spec (maxW maxH : Nat) (f : FrameData) (x y : Nat) (c : DrawCall)
    (h : pixelDrawAt maxW maxH f x y = some c) :
    (0 ≤ srcXAt maxW maxH f x ∧ srcXAt maxW maxH f x < (f.width : ℤ) ∧
        0 ≤ srcYAt maxW maxH f y ∧ srcYAt maxW maxH f y < (f.height : ℤ)) ∧
      128 < f.data (((srcYAt maxW maxH f y).toNat * f.width +
        (srcXAt maxW maxH f x).toNat) * 4 + 3) ∧
      c = ⟨x, y,
        f.data (((srcYAt maxW maxH f y).toNat * f.width +
          (srcXAt maxW maxH f x).toNat) * 4),
        f.data (((srcYAt maxW maxH f y).toNat * f.width +
          (srcXAt maxW maxH f x).toNat) * 4 + 1),
        f.data (((srcYAt maxW maxH f y).toNat * f.width +
          (srcXAt maxW maxH f x).toNat) * 4 + 2)⟩ := by
  simp only [pixelDrawAt] at h
  split at h
  · rename_i hin
    split at h
    · rename_i ha
      exact ⟨hin, ha, (Option.some.inj h).symm⟩
    · exact absurd h (by simp)
  · exact absurd h (by simp)

/-- Converse construction: an in-bounds source pixel with alpha above
128 produces exactly the draw call carrying its RGB bytes. -/
theorem pixelDrawAt_some_of (maxW maxH : Nat) (f : FrameData) (x y : Nat)
    (hin : 0 ≤ srcXAt maxW maxH f x ∧ srcXAt maxW maxH f x < (f.width : ℤ) ∧
      0 ≤ srcYAt maxW maxH f y ∧ srcYAt maxW maxH f y < (f.height : ℤ))
    (ha : 128 < f.data (((srcYAt maxW maxH f y).toNat * f.width +
      (srcXAt maxW maxH f x).toNat) * 4 + 3)) :
    pixelDrawAt maxW maxH f x y = some ⟨x, y,
      f.data (((srcYAt maxW maxH f y).toNat * f.width +
        (srcXAt maxW maxH f x).toNat) * 4),
      f.data (((srcYAt maxW maxH f y).toNat * f.width +
        (srcXAt maxW maxH f x).toNat) * 4 + 1),
      f.data (((srcYAt maxW maxH f y).toNat * f.width +
        (srcXAt maxW maxH f x).toNat) * 4 + 2)⟩ := by
  simp only [pixelDrawAt]
  rw [if_pos hin, if_pos ha]

/-! ### Theorems for the rendering claims -/

/-- C2: decodeFrame uses the uniform scale factor
min(maxWidth / frameWidth, maxHeight / frameHeight) capped at 1 (never
upscaling, and positive for nonempty frames and surfaces), centers the
scaled image with offsets (maxWidth - scaledWidth) / 2 and
(maxHeight - scaledHeight) / 2, maps every emitted destination pixel to
an in-bounds source pixel by inverse scaling with nearest-neighbor
truncation and copies that pixel's RGB bytes, and emits no drawPixel
call for a destination pixel whose inverse-mapped source falls outside
the frame. -/
theorem decodeFrame_scaling (maxW maxH : Nat) (f : FrameData)
    (hW : 0 < maxW) (hH : 0 < maxH) (hw : 0 < f.width) (hh : 0 < f.height) :
    gifScale maxW maxH f.width f.height =
        min (min ((maxW : ℚ) / (f.width : ℚ)) ((maxH : ℚ) / (f.height : ℚ))) 1 ∧
      0 < gifScale maxW maxH f.width f.height ∧
      gifScale maxW maxH f.width f.height ≤ 1 ∧
      offsetX maxW maxH f = Int.tdiv ((maxW : ℤ) - scaledWidth maxW maxH f) 2 ∧
      offsetY maxW maxH f = Int.tdiv ((maxH : ℤ) - scaledHeight maxW maxH f) 2 ∧
      (∀ c ∈ decodeFrameDraws maxW maxH f,
        (0 ≤ srcXAt maxW maxH f c.x ∧ srcXAt maxW maxH f c.x < (f.width : ℤ) ∧
          0 ≤ srcYAt maxW maxH f c.y ∧ srcYAt maxW maxH f c.y < (f.height : ℤ)) ∧
          c.red = f.data (((srcYAt maxW maxH f c.y).toNat * f.width +
            (srcXAt maxW maxH f c.x).toNat) * 4) ∧
          c.green = f.data (((srcYAt maxW maxH f c.y).toNat * f.width +
            (srcXAt maxW maxH f c.x).toNat) * 4 + 1) ∧
          c.blue = f.data (((srcYAt maxW maxH f c.y).toNat * f.width +
            (srcXAt maxW maxH f c.x).toNat) * 4 + 2)) ∧
      (∀ x y : Nat,
        ¬ (0 ≤ srcXAt maxW maxH f x ∧ srcXAt maxW maxH f x < (f.width : ℤ) ∧
            0 ≤ srcYAt maxW maxH f y ∧ srcYAt maxW maxH f y < (f.height : ℤ)) →
        ∀ c ∈ decodeFrameDraws maxW maxH f, ¬ (c.x = x ∧ c.y = y)) := by
  have hmin : gifScale maxW maxH f.width f.height =
      min (min ((maxW : ℚ) / (f.width : ℚ)) ((maxH : ℚ) / (f.height : ℚ))) 1 := by
    simp only [gifScale]
    by_cases h1 : (maxW : ℚ) / (f.width : ℚ) < (maxH : ℚ) / (f.height : ℚ)
    · rw [if_pos h1, min_eq_left h1.le]
      by_cases h2 : (1 : ℚ) < (maxW : ℚ) / (f.width : ℚ)
      · rw [if_pos h2, min_eq_right h2.le]
      · rw [if_neg h2, min_eq_left (not_lt.mp h2)]
    · rw [if_neg h1, min_eq_right (not_lt.mp h1)]
      by_cases h2 : (1 : ℚ) < (maxH : ℚ) / (f.height : ℚ)
      · rw [if_pos h2, min_eq_right h2.le]
      · rw [if_neg h2, min_eq_left (not_lt.mp h2)]
  have hsx : 0 < (maxW : ℚ) / (f.width : ℚ) :=
    div_pos (by exact_mod_cast hW) (by exact_mod_cast hw)
  have hsy : 0 < (maxH : ℚ) / (f.height : ℚ) :=
    div_pos (by exact_mod_cast hH) (by exact_mod_cast hh)
  have hpos : 0 < gifScale maxW maxH f.width f.height := by
    rw [hmin]; exact lt_min (lt_min hsx hsy) one_pos
  have hle : gifScale maxW maxH f.width f.height ≤ 1 := by
    rw [hmin]; exact min_le_right _ _
  refine ⟨hmin, hpos, hle, rfl, rfl, ?_, ?_⟩
  · intro c hc
    obtain ⟨hx, hy, hpx⟩ := (mem_decodeFrameDraws maxW maxH f c).mp hc
    obtain ⟨hin, ha, hceq⟩ := pixelDrawAt_spec maxW maxH f c.x c.y c hpx
    refine ⟨hin, ?_, ?_, ?_⟩
    · conv_lhs => rw [hceq]
    · conv_lhs => rw [hceq]
    · conv_lhs => rw [hceq]
  · intro x y hnin c hc hxy
    obtain ⟨hx, hy, hpx⟩ := (mem_decodeFrameDraws maxW maxH f c).mp hc
    obtain ⟨hin, -, -⟩ := pixelDrawAt_spec maxW maxH f c.x c.y c hpx
    rw [hxy.1, hxy.2] at hin
    exact hnin hin

/-- Concrete frame for the rendering witnesses: a 2 x 2 RGBA buffer with
pixel (0,0) opaque (alpha 255), (1,0) transparent (alpha 100), (0,1)
just above the threshold (alpha 129), (1,1) at the threshold
(alpha 128). -/
def frameW : FrameData :=
  ⟨2, 2, fun i =>
    List.getD [10, 20, 30, 255, 40, 50, 60, 100, 70, 80, 90, 129, 5, 6, 7, 128] i 0⟩

/-- Evaluation of the inverse column map on the witness frame: with
scale 1 and zero offset, destination column 0 maps to source column 0. -/
theorem srcXAt_frameW_zero : srcXAt 2 2 frameW 0 = 0 := by
  norm_num [srcXAt, offsetX, scaledWidth, gifScale, ratTrunc, frameW,
    Int.tdiv_one, Int.zero_tdiv]

/-- Evaluation of the inverse row map on the witness frame. -/
theorem srcYAt_frameW_zero : srcYAt 2 2 frameW 0 = 0 := by
  norm_num [srcYAt, offsetY, scaledHeight, gifScale, ratTrunc, frameW,
    Int.tdiv_one, Int.zero_tdiv]

/-- Witness for C2: on the concrete frame the scale factor is positive
and capped at 1. -/
theorem decodeFrame_scaling_witness :
    0 < gifScale 2 2 frameW.width frameW.height ∧
      gifScale 2 2 frameW.width frameW.height ≤ 1 :=
  ⟨(decodeFrame_scaling 2 2 frameW (by norm_num) (by norm_num)
      (by decide) (by decide)).2.1,
    (decodeFrame_scaling 2 2 frameW (by norm_num) (by norm_num)
      (by decide) (by decide)).2.2.1⟩

/-- C3: for a destination pixel whose inverse-mapped source lies in the
frame, the drawPixel callback is invoked if and only if the source
pixel's alpha byte exceeds the 50 percent coverage threshold of 128;
at or below the threshold no callback is invoked, so the previous
back-buffer contents persist there. -/
theorem decodeFrame_alpha_threshold (maxW maxH : Nat) (f : FrameData) (x y : Nat)
    (hx : x < maxW) (hy : y < maxH)
    (hin : 0 ≤ srcXAt maxW maxH f x ∧ srcXAt maxW maxH f x < (f.width : ℤ) ∧
      0 ≤ srcYAt maxW maxH f y ∧ srcYAt maxW maxH f y < (f.height : ℤ)) :
    (∃ c ∈ decodeFrameDraws maxW maxH f, c.x = x ∧ c.y = y) ↔
      128 < f.data (((srcYAt maxW maxH f y).toNat * f.width +
        (srcXAt maxW maxH f x).toNat) * 4 + 3) := by
  constructor
  · rintro ⟨c, hc, hcx, hcy⟩
    obtain ⟨-, -, hpx⟩ := (mem_decodeFrameDraws maxW maxH f c).mp hc
    rw [hcx, hcy] at hpx
    obtain ⟨-, ha, -⟩ := pixelDrawAt_spec maxW maxH f x y c hpx
    exact ha
  · intro ha
    refine ⟨⟨x, y,
        f.data (((srcYAt maxW maxH f y).toNat * f.width +
          (srcXAt maxW maxH f x).toNat) * 4),
        f.data (((srcYAt maxW maxH f y).toNat * f.width +
          (srcXAt maxW maxH f x).toNat) * 4 + 1),
        f.data (((srcYAt maxW maxH f y).toNat * f.width +
          (srcXAt maxW maxH f x).toNat) * 4 + 2)⟩, ?_, rfl, rfl⟩
    rw [mem_decodeFrameDraws]
    exact ⟨hx, hy, pixelDrawAt_some_of maxW maxH f x y hin ha⟩

/-- Witness for C3: at destination (0,0) of the concrete frame the
callback-invocation equivalence holds with an opaque source pixel. -/
theorem decodeFrame_alpha_threshold_witness :
    (∃ c ∈ decodeFrameDraws 2 2 frameW, c.x = 0 ∧ c.y = 0) ↔
      128 < frameW.data (((srcYAt 2 2 frameW 0).toNat * frameW.width +
        (srcXAt 2 2 frameW 0).toNat) * 4 + 3) :=
  decodeFrame_alpha_threshold 2 2 frameW 0 0 (by norm_num) (by norm_num)
    (by rw [srcXAt_frameW_zero, srcYAt_frameW_zero]; decide)

/-! ### Remote-control input handling (Bonnaroo.cpp) -/

/-- The 21 raw remote codes of the BUT_ defines (Bonnaroo.cpp lines
150-170), the codes validatePressAndGetName recognizes. -/
def validButtons : List Nat :=
  [0xFF00BF00, 0xFE01BF00, 0xFD02BF00, 0xFB04BF00, 0xFA05BF00, 0xF906BF00,
   0xF708BF00, 0xF609BF00, 0xF50ABF00, 0xF30CBF00, 0xF20DBF00, 0xF10EBF00,
   0xEF10BF00, 0xEE11BF00, 0xED12BF00, 0xEB14BF00, 0xEA15BF00, 0xE916BF00,
   0xE718BF00, 0xE619BF00, 0xE51ABF00]

/-- Embeds the boolean result of validatePressAndGetName (Bonnaroo.cpp
lines 209-279): true exactly on the codes of the switch, false on the
default branch. -/
def validatePressAndGetName (received_data : Nat) : Bool :=
  validButtons.contains received_data

/-- Unsigned 64-bit subtraction, the arithmetic the host build performs
on the unsigned long millis values in now - lastAcceptedIRTimestamp. -/
def usub64 (a b : Nat) : Nat :=
  (a % 18446744073709551616 + 18446744073709551616 - b % 18446744073709551616) %
    18446744073709551616

/-- Embeds the input-acceptance logic of HandleIRInputs (Bonnaroo.cpp
lines 310-364) as a function of the current millis value, the stored
lastAcceptedIRTimestamp and the received raw data (none when nothing was
decoded): returns the new timestamp and whether the input was accepted
(acted upon). Invalid input and input inside the 400 ms window after a
recorded acceptance are rejected and leave the timestamp unchanged; the
window test is guarded by lastAcceptedIRTimestamp being positive. -/
def HandleIRInputs (now lastAcceptedIRTimestamp : Nat) (received : Option Nat) :
    Nat × Bool :=
  match received with
  | none => (lastAcceptedIRTimestamp, false)
  | some received_data =>
    if ¬ (validatePressAndGetName received_data = true) then
      (lastAcceptedIRTimestamp, false)
    else if 0 < lastAcceptedIRTimestamp ∧
        usub64 now lastAcceptedIRTimestamp < 400 then
      (lastAcceptedIRTimestamp, false)
    else (now, true)

/-! ### File enumeration predicate (FilenameFunctions.cpp) -/

/-- ASCII uppercase conversion, applied per character by the Arduino
String::toUpperCase call inside isAnimationFile. -/
def charToUpper (c : Nat) : Nat :=
  if 97 ≤ c ∧ c ≤ 122 then c - 32 else c

/-- ASCII lowercase conversion, used to phrase the spec's
case-insensitive suffix comparison. -/
def charToLower (c : Nat) : Nat :=
  if 65 ≤ c ∧ c ≤ 90 then c + 32 else c

/-- Embeds Arduino String::endsWith as called at FilenameFunctions.cpp
line 66: the string is at least as long as the suffix and its tail
compares equal to it. -/
def stringEndsWith (s suf : List Nat) : Bool :=
  decide (suf.length ≤ s.length) &&
    decide (List.drop (s.length - suf.length) s = suf)

/-- Embeds isAnimationFile (FilenameFunctions.cpp lines 51-70), non-ESP32
path, over filenames as byte lists: reject names whose first character
is underscore (95), tilde (126) or dot (46) — Arduino String operator[]
yields byte 0 on an empty string — then uppercase the name and require
the ".GIF" suffix (bytes 46, 71, 73, 70). -/
def isAnimationFile (s : List Nat) : Bool :=
  if s.headD 0 = 95 ∨ s.headD 0 = 126 ∨ s.headD 0 = 46 then false
  else stringEndsWith (List.map charToUpper s) [46, 71, 73, 70]

/-- The acceptance predicate as the spec words it: the name ends with
".gif" (bytes 46, 103, 105, 102) compared case-insensitively, and the
first character is none of underscore, tilde, dot. -/
def specAnimationFile (s : List Nat) : Bool :=
  (decide (4 ≤ s.length) &&
      decide (List.map charToLower (List.drop (s.length - 4) s) =
        [46, 103, 105, 102])) &&
    ! (decide (s.headD 0 = 95) || decide (s.headD 0 = 126) ||
        decide (s.headD 0 = 46))

/-! ### Theorems for the compositor, file mock and brightness claims -/

/-- C6: for every coordinate outside the canvas bounds and every color,
drawPixel on the background layer is a no-op: it signals no error and
returns the layer unchanged, so every cell of the back buffer, including
all in-bounds pixels, is untouched. -/
theorem drawPixel_out_of_bounds (l : BackgroundLayer) (x y : Int) (color : Rgb24)
    (h : ¬ (0 ≤ x ∧ x < (l.width : Int) ∧ 0 ≤ y ∧ y < (l.height : Int))) :
    SMLayerBackground.drawPixel l x y color = l := by
  simp only [SMLayerBackground.drawPixel, if_neg h]

/-- Witness for C6: drawing at x = -1 on a concrete 64 x 64 layer with
zeroed buffers leaves the layer unchanged. -/
theorem drawPixel_out_of_bounds_witness :
    SMLayerBackground.drawPixel ⟨64, 64, fun _ => 0, fun _ => 0⟩ (-1) 3 ⟨255, 0, 0⟩ =
      ⟨64, 64, fun _ => 0, fun _ => 0⟩ :=
  drawPixel_out_of_bounds ⟨64, 64, fun _ => 0, fun _ => 0⟩ (-1) 3 ⟨255, 0, 0⟩ (by decide)

/-- C7: the publish operation is idempotent under no intervening writes:
calling swapBuffers twice in a row, with no back-buffer write in
between, leaves the visible front buffer identical after the second call
to its state after the first call. -/
theorem swapBuffers_idempotent (l : BackgroundLayer) (c₁ c₂ : Bool) :
    (SMLayerBackground.swapBuffers (SMLayerBackground.swapBuffers l c₁) c₂).g_display_buffer =
      (SMLayerBackground.swapBuffers l c₁).g_display_buffer := by
  funext i
  simp only [SMLayerBackground.swapBuffers]
  by_cases h : i < l.width * l.height * 3 <;> simp [h]

/-- C5 counterexample: on an open zero-byte file, seek(5) with 5 greater
than the size returns true, not false, and afterwards the position (5)
exceeds the size (0), refuting both the failure condition and the
position invariant of the claim. -/
theorem seek_past_end_counterexample :
    ¬ ((MockFile.seek ⟨true, [], 0⟩ 5).2 = false) ∧
      ¬ (MockFile.position (MockFile.seek ⟨true, [], 0⟩ 5).1 ≤
          MockFile.size (MockFile.seek ⟨true, [], 0⟩ 5).1) := by
  decide

/-- C5 (amended): seek(p) returns false exactly when the underlying FILE
handle is not open (the I/O failure case); on an open regular file it
succeeds for every p, including p greater than the size, and sets the
position to p, so the position is always nonnegative but need not stay
at or below the size. -/
theorem seek_amended (f : MockFile) (p : Nat) :
    ((MockFile.seek f p).2 = false ↔ f.isOpen = false) ∧
      (f.isOpen = true → MockFile.position (MockFile.seek f p).1 = p) := by
  constructor
  · cases h : f.isOpen <;> simp [MockFile.seek, h]
  · intro h
    simp [MockFile.seek, MockFile.position, h]

/-- Witness for C5: on a concrete open three-byte file, seeking to 7
succeeds and lands the position at 7. -/
theorem seek_amended_witness :
    MockFile.position (MockFile.seek ⟨true, [1, 2, 3], 0⟩ 7).1 = 7 :=
  (seek_amended ⟨true, [1, 2, 3], 0⟩ 7).2 rfl

/-- C10: starting from the initial brightness 26, after every sequence
of adjustBrightness calls with any integer amounts the brightness stays
within [0, 180] = [0, max_brightness], and in particular below the
hardware maximum 255: decreases clamp at 0, increases clamp at 180. -/
theorem adjustBrightness_invariant (amounts : List Int) :
    0 ≤ List.foldl adjustBrightness initial_brightness amounts ∧
      List.foldl adjustBrightness initial_brightness amounts ≤ max_brightness ∧
      List.foldl adjustBrightness initial_brightness amounts < 255 := by
  have step : ∀ (b a : Int), 0 ≤ b → b ≤ max_brightness →
      0 ≤ adjustBrightness b a ∧ adjustBrightness b a ≤ max_brightness := by
    intro b a hb hb'
    simp only [adjustBrightness, max_brightness] at *
    split <;> constructor <;>
      simp only [le_max_iff, max_le_iff, le_min_iff, min_le_iff] <;> omega
  have main : ∀ (xs : List Int) (b : Int), 0 ≤ b → b ≤ max_brightness →
      0 ≤ List.foldl adjustBrightness b xs ∧
        List.foldl adjustBrightness b xs ≤ max_brightness := by
    intro xs
    induction xs with
    | nil => intro b hb hb'; simpa using ⟨hb, hb'⟩
    | cons a xs ih =>
      intro b hb hb'
      have h := step b a hb hb'
      simpa using ih (adjustBrightness b a) h.1 h.2
  have h := main amounts initial_brightness (by decide) (by decide)
  refine ⟨h.1, h.2, ?_⟩
  have := h.2
  simp only [max_brightness] at this ⊢
  omega

/-! ### Theorems for the decoder frame sequencing claims -/

/-- Helper for C1: from any state whose frame counter is k frames short
of the frame count, k decodeFrame calls return k-1 zeros then -1, and
the final state has its frame counter reset to 0. -/
theorem decodeCalls_exhaust : ∀ (k : Nat) (s : GifState), 0 < k →
    s.frameCount = s.currentFrame + k →
    (decodeCalls k s).1 = List.replicate (k - 1) (0 : Int) ++ [-1] ∧
      (decodeCalls k s).2.currentFrame = 0 := by
  intro k
  induction k with
  | zero => intro s h hfc; exact absurd h (by omega)
  | succ k ih =>
    intro s hpos hfc
    have hne : ¬ s.frameCount = 0 := by omega
    have hcf : s.currentFrame < s.frameCount := by omega
    rcases Nat.eq_zero_or_pos k with hk0 | hkpos
    · subst hk0
      have hlast : s.frameCount ≤ s.currentFrame + 1 := by omega
      constructor <;>
        simp [decodeCalls, GifDecoder.decodeFrame, hne, hcf, hlast]
    · obtain ⟨j, rfl⟩ : ∃ j, k = j + 1 := ⟨k - 1, by omega⟩
      have hnotlast : ¬ s.frameCount ≤ s.currentFrame + 1 := by omega
      have hstep1 : (GifDecoder.decodeFrame s).1 =
          { s with
              currentDelay :=
                if s.frameDelays.getD s.currentFrame 0 < 10 then 100
                else s.frameDelays.getD s.currentFrame 0,
              currentFrame := s.currentFrame + 1 } := by
        simp [GifDecoder.decodeFrame, hne, hcf, hnotlast]
      have hstep2 : (GifDecoder.decodeFrame s).2 = 0 := by
        simp [GifDecoder.decodeFrame, hne, hcf, hnotlast]
      have hrec := ih { s with
          currentDelay :=
            if s.frameDelays.getD s.currentFrame 0 < 10 then 100
            else s.frameDelays.getD s.currentFrame 0,
          currentFrame := s.currentFrame + 1 }
        (by omega) (by show s.frameCount = s.currentFrame + 1 + (j + 1); omega)
      constructor
      · rw [decodeCalls]
        simp only [hstep1, hstep2]
        rw [hrec.1]
        simp [List.replicate_succ]
      · rw [decodeCalls]
        simp only [hstep1, hstep2]
        exact hrec.2

/-- C1 counterexample: for a loaded GIF with N = 1 frame, the first
decodeFrame call after startDecoding already returns EndOfAnimation
(-1), not Ok (0): the claimed pattern of one 0 followed by -1 fails. -/
theorem decodeFrame_sequence_counterexample :
    (decodeCalls 2 (GifDecoder.startDecoding 1 [100])).1 = [-1, -1] ∧
      ¬ ((decodeCalls 2 (GifDecoder.startDecoding 1 [100])).1 =
          List.replicate 1 (0 : Int) ++ [-1]) := by
  decide

/-- C1 (amended): for every loaded GIF with N frames (N >= 1), after a
successful startDecoding the first N-1 decodeFrame calls return Ok (0)
and the Nth call, which still renders the last frame, returns
EndOfAnimation (-1) while resetting the frame counter to 0, so
subsequent calls replay the animation without reinvoking
startDecoding. -/
theorem decodeFrame_sequence (N : Nat) (frameDelays : List Int) (h : 1 ≤ N) :
    (decodeCalls N (GifDecoder.startDecoding N frameDelays)).1 =
        List.replicate (N - 1) (0 : Int) ++ [-1] ∧
      (decodeCalls N (GifDecoder.startDecoding N frameDelays)).2.currentFrame = 0 :=
  decodeCalls_exhaust N (GifDecoder.startDecoding N frameDelays) h
    (show N = 0 + N from (Nat.zero_add N).symm)

/-- Witness for C1: a concrete 3-frame GIF yields return codes
0, 0, -1 and ends with the frame counter back at 0. -/
theorem decodeFrame_sequence_witness :
    (decodeCalls 3 (GifDecoder.startDecoding 3 [0, 20, 300])).1 =
        List.replicate 2 (0 : Int) ++ [-1] ∧
      (decodeCalls 3 (GifDecoder.startDecoding 3 [0, 20, 300])).2.currentFrame = 0 :=
  decodeFrame_sequence 3 [0, 20, 300] (by decide)

/-- C4: for a frame whose stored inter-frame delay is 0, the delay
reported by getFrameDelay_ms after decodeFrame is the 100 ms floor; for
a frame whose stored delay is at or above that floor, the reported delay
equals the stored value. -/
theorem getFrameDelay_floor (s : GifState) (h0 : 0 < s.frameCount)
    (hcf : s.currentFrame < s.frameCount) :
    (s.frameDelays.getD s.currentFrame 0 = 0 →
      GifDecoder.getFrameDelay_ms (GifDecoder.decodeFrame s).1 = 100) ∧
      (∀ d : Int, s.frameDelays.getD s.currentFrame 0 = d → 100 ≤ d →
        GifDecoder.getFrameDelay_ms (GifDecoder.decodeFrame s).1 = d) := by
  have hne : ¬ s.frameCount = 0 := by omega
  constructor
  · intro hd
    simp only [GifDecoder.decodeFrame, GifDecoder.getFrameDelay_ms, hne, hcf,
      ite_false, ite_true, if_false, if_true, hd]
    norm_num
    split <;> rfl
  · intro d hd hge
    have hnot : ¬ d < 10 := by omega
    simp only [GifDecoder.decodeFrame, GifDecoder.getFrameDelay_ms, hne, hcf,
      ite_false, ite_true, if_false, if_true, hd, hnot]
    split <;> rfl

/-- Witness for C4: on a 2-frame state whose first frame stores delay 0
the reported delay is 100; on one whose first frame stores 150 the
reported delay is 150. -/
theorem getFrameDelay_floor_witness :
    GifDecoder.getFrameDelay_ms (GifDecoder.decodeFrame ⟨2, [0, 150], 0, 100⟩).1 = 100 ∧
      GifDecoder.getFrameDelay_ms (GifDecoder.decodeFrame ⟨2, [150, 0], 0, 100⟩).1 = 150 :=
  ⟨(getFrameDelay_floor ⟨2, [0, 150], 0, 100⟩ (by decide) (by decide)).1 rfl,
    (getFrameDelay_floor ⟨2, [150, 0], 0, 100⟩ (by decide) (by decide)).2 150 rfl (by norm_num)⟩

/-! ### Theorems for the debounce claim -/

/-- C8 counterexample: a valid press accepted when millis is 0 leaves
the timestamp at the 0 sentinel, so a second valid press only 100 ms
later is accepted as well, not rejected as the claim requires. -/
theorem HandleIRInputs_debounce_counterexample :
    (HandleIRInputs 0 0 (some 0xFF00BF00)).2 = true ∧
      (HandleIRInputs 0 0 (some 0xFF00BF00)).1 = 0 ∧
      (HandleIRInputs 100 (HandleIRInputs 0 0 (some 0xFF00BF00)).1
        (some 0xFF00BF00)).2 = true := by
  decide

/-- C8 (amended): after an input is accepted at a positive time t, a
valid input at t+d with d < 400 is rejected and leaves the stored
timestamp at t, and a valid input at t+d with d >= 400 is accepted and
updates the timestamp; in particular presses 100 ms apart count once and
presses 500 ms apart count twice. The positivity of t is required
because the code uses timestamp 0 as the no-prior-input sentinel. -/
theorem HandleIRInputs_debounce (t t' code : Nat)
    (hcode : validatePressAndGetName code = true) (ht : 0 < t) (hle : t ≤ t')
    (hbound : t' < 18446744073709551616) :
    (t' - t < 400 → HandleIRInputs t' t (some code) = (t, false)) ∧
      (400 ≤ t' - t → HandleIRInputs t' t (some code) = (t', true)) := by
  have husub : usub64 t' t = t' - t := by
    simp only [usub64]
    omega
  constructor
  · intro h
    have hc : 0 < t ∧ usub64 t' t < 400 := ⟨ht, by rw [husub]; exact h⟩
    simp [HandleIRInputs, hcode, hc]
  · intro h
    have hc : ¬ (0 < t ∧ usub64 t' t < 400) := by rw [husub]; omega
    simp [HandleIRInputs, hcode, hc]

/-- Witness for C8: with acceptance recorded at 1000 ms, a press at
1100 ms is rejected and one at 1500 ms is accepted. -/
theorem HandleIRInputs_debounce_witness :
    HandleIRInputs 1100 1000 (some 0xFF00BF00) = (1000, false) ∧
      HandleIRInputs 1500 1000 (some 0xFF00BF00) = (1500, true) :=
  ⟨(HandleIRInputs_debounce 1000 1100 0xFF00BF00 (by decide) (by decide)
      (by decide) (by decide)).1 (by decide),
    (HandleIRInputs_debounce 1000 1500 0xFF00BF00 (by decide) (by decide)
      (by decide) (by decide)).2 (by decide)⟩

/-! ### Theorems for the filename predicate claim -/

/-- Uppercasing a byte yields a dot exactly when lowercasing yields a
dot. -/
theorem charUpper_dot (c : Nat) : charToUpper c = 46 ↔ charToLower c = 46 := by
  simp only [charToUpper, charToLower]
  split_ifs <;> omega

/-- Uppercasing a byte yields G exactly when lowercasing yields g. -/
theorem charUpper_g (c : Nat) : charToUpper c = 71 ↔ charToLower c = 103 := by
  simp only [charToUpper, charToLower]
  split_ifs <;> omega

/-- Uppercasing a byte yields I exactly when lowercasing yields i. -/
theorem charUpper_i (c : Nat) : charToUpper c = 73 ↔ charToLower c = 105 := by
  simp only [charToUpper, charToLower]
  split_ifs <;> omega

/-- Uppercasing a byte yields F exactly when lowercasing yields f. -/
theorem charUpper_f (c : Nat) : charToUpper c = 70 ↔ charToLower c = 102 := by
  simp only [charToUpper, charToLower]
  split_ifs <;> omega

/-- A byte list uppercases to ".GIF" exactly when it lowercases to
".gif". -/
theorem map_upper_gif : ∀ t : List Nat,
    List.map charToUpper t = [46, 71, 73, 70] ↔
      List.map charToLower t = [46, 103, 105, 102]
  | [] => by simp
  | [a] => by simp
  | [a, b] => by simp
  | [a, b, c] => by simp
  | [a, b, c, d] => by
    simp [charUpper_dot, charUpper_g, charUpper_i, charUpper_f]
  | a :: b :: c :: d :: e :: rest => by simp

/-- C9: the animation-file predicate accepts a filename if and only if
it ends with ".gif" compared case-insensitively and its first character
is not underscore, tilde or dot — exactly the spec's predicate, so files
failing either test are excluded. -/
theorem isAnimationFile_iff_spec (s : List Nat) :
    isAnimationFile s = specAnimationFile s := by
  simp only [isAnimationFile, specAnimationFile, stringEndsWith]
  by_cases h : s.headD 0 = 95 ∨ s.headD 0 = 126 ∨ s.headD 0 = 46
  · rw [if_pos h]
    have hb : (decide (s.headD 0 = 95) || decide (s.headD 0 = 126) ||
        decide (s.headD 0 = 46)) = true := by
      rcases h with h | h | h <;> rw [h] <;> simp
    rw [hb]
    simp
  · rw [if_neg h]
    push_neg at h
    obtain ⟨h1, h2, h3⟩ := h
    have hiff : (List.drop (s.length - 4) (List.map charToUpper s) =
          [46, 71, 73, 70]) ↔
        (List.drop (s.length - 4) (List.map charToLower s) =
          [46, 103, 105, 102]) := by
      rw [← List.map_drop, ← List.map_drop]
      exact map_upper_gif _
    simp only [List.length_map, List.length_cons, List.length_nil, h1, h2, h3,
      decide_eq_decide.mpr hiff]
    simp

end BonnarooLed
